import Mathlib

/-!
# Shallow embedding of the SecureNetFileXfer client and server

Source files: `src/client/SecureNetFileXferClient.py` and
`src/server/SecureNetFileXferServer.py`.

Bytes are modelled as `List Nat` (one element per byte).  The framing logic
never re-encodes bytes, so no global `< 256` bound is required; it matters
only for the `int.to_bytes` / `int.from_bytes` arithmetic, where the
definitions themselves produce values `< 256`.

The TLS/TCP stream seen by the server is modelled as a list of events that
successive socket interactions yield: buffered data chunks, transient
`SSLWantReadError` signals, `select` windows that elapse with no data,
an `UNEXPECTED_EOF_WHILE_READING` SSL error, or another hard SSL error.
The end of the event list models the cleanly closed stream, on which
`recv` returns `b''`.
-/

namespace SecureNetFileXfer

/-! ## Client-side framing (src/client/SecureNetFileXferClient.py) -/

/-- Python's `name_length.to_bytes(4, byteorder='big')` (client line 50), as the list
of the four big-endian byte values.  Python raises `OverflowError` when the
integer does not fit in four bytes; `sendFile` guards the call with the
corresponding bound. -/
def toBytesBE4 (n : Nat) : List Nat :=
  [n / 16777216 % 256, n / 65536 % 256, n / 256 % 256, n % 256]

/-- Python's `int.from_bytes(bs, byteorder='big')` (server line 70). -/
def fromBytesBE (bs : List Nat) : Nat :=
  bs.foldl (fun acc b => acc * 256 + b) 0

/-- Python's `file_path.split('/')[-1]` (client line 42), at byte level: the suffix
of the path after the last `'/'` (byte value 47).  For a path containing no
separator, `split` returns the whole path as its single element. -/
def basename (path : List Nat) : List Nat :=
  (path.reverse.takeWhile (fun b => b != 47)).reverse

/-- The client's chunk loop (client lines 57-65): each iteration reads
`file.read(1024)`, i.e. the next at-most-1024-byte chunk of `remaining`,
breaks when the read returns no data, otherwise sends the chunk with
`sendall`, adds its length to `bytes_sent` and prints the progress
`(bytes_sent / file_size) * 100` (line 64).  Returns the list of chunks
passed to `sendall` and, one per executed loop body, the pair
`(bytes_sent, file_size)` to which the progress division is applied. -/
def sendLoop : List Nat → Nat → Nat → List (List Nat) × List (Nat × Nat)
  | [], _, _ => ([], [])
  | b :: rest, bytesSent, fileSize =>
    let d := (b :: rest).take 1024
    let sent := bytesSent + d.length
    let r := sendLoop ((b :: rest).drop 1024) sent fileSize
    (d :: r.1, (sent, fileSize) :: r.2)
termination_by remaining _ _ => remaining.length
decreasing_by
  simp [List.length_drop]
  omega

/-- The one failure of the framing computation itself: `to_bytes` overflow
when the encoded file name is at least `2^32` bytes long. -/
inductive ClientErr where
  | overflow : ClientErr
deriving DecidableEq

/-- Client lines 41-66: take the basename of the path, send the 4-byte
big-endian length of the encoded name, then the name bytes, then the file
content in 1024-byte chunks.  The first component of the result is the
byte stream produced by concatenating every `sendall` payload in order;
the second is the list of progress pairs printed by the loop. -/
def sendFile (filePath content : List Nat) :
    Except ClientErr (List Nat × List (Nat × Nat)) :=
  let fileName := basename filePath
  let fileSize := content.length
  let nameLength := fileName.length
  if nameLength < 4294967296 then
    let r := sendLoop content 0 fileSize
    .ok (toBytesBE4 nameLength ++ fileName ++ r.1.flatten, r.2)
  else
    .error .overflow

/-! ## Server-side stream model (src/server/SecureNetFileXferServer.py) -/

/-- One result of a socket interaction, as yielded to the server's reads
(server lines 16-25 and 78-94).  A `chunk` is the data the kernel buffer
delivers to a `recv` call (a `recv` asking for fewer bytes takes a prefix
and leaves the rest buffered).  The end of the event list models the
cleanly closed stream: `recv` returns `b''` there. -/
inductive NetEvent where
  | chunk : List Nat → NetEvent
  | wantRead : NetEvent
  | pollTimeout : NetEvent
  | abruptEOF : NetEvent
  | sslFailure : NetEvent
deriving DecidableEq

/-- How a receive operation fails: `connClosed` is the
`ConnectionError("Connection closed by client")` raised on an empty `recv`
(server line 21); `abruptEOF` and `sslFailure` are `ssl.SSLError`s
propagating out of `receive_data` (only `SSLWantReadError` is caught
there, server lines 23-24). -/
inductive RecvErr where
  | connClosed : RecvErr
  | abruptEOF : RecvErr
  | sslFailure : RecvErr
deriving DecidableEq

/-- Termination measure: one unit per event plus one per buffered byte. -/
def streamSize : List NetEvent → Nat
  | [] => 0
  | .chunk bs :: rest => 1 + bs.length + streamSize rest
  | _ :: rest => 1 + streamSize rest

/-- The function `receive_data(secure_client, length)` (server lines 6-25): loop until
`length` bytes accumulate in `data`; each iteration calls
`recv(min(length - len(data), 1024))`, which takes at most that many bytes
from the front buffered chunk and leaves the remainder buffered; an empty
`recv` result raises `ConnectionError`; `SSLWantReadError` is caught and
the loop continues; any other SSL error propagates.  A `pollTimeout` event
is a poll window with no data, through which the blocking `recv` simply
waits.  Returns the accumulated bytes together with the remaining
stream. -/
def receiveDataLoop (events : List NetEvent) (length : Nat) (data : List Nat) :
    Except RecvErr (List Nat × List NetEvent) :=
  if data.length < length then
    match events with
    | [] => .error .connClosed
    | .chunk bs :: rest =>
      let n := min (length - data.length) 1024
      if (bs.take n).isEmpty then .error .connClosed
      else
        receiveDataLoop
          (if (bs.drop n).isEmpty then rest else .chunk (bs.drop n) :: rest)
          length (data ++ bs.take n)
    | .wantRead :: rest => receiveDataLoop rest length data
    | .pollTimeout :: rest => receiveDataLoop rest length data
    | .abruptEOF :: _ => .error .abruptEOF
    | .sslFailure :: _ => .error .sslFailure
  else
    .ok (data, events)
termination_by streamSize events + (length - data.length)
decreasing_by
  · split <;>
      simp_all [streamSize, List.length_take, List.length_drop,
        List.isEmpty_iff, List.length_append] <;> omega
  · simp [streamSize]
  · simp [streamSize]

/-- The payload loop (server lines 77-94): each iteration polls with
`select([secure_client], [], [], 5.0)` — a `pollTimeout` event is such a
window elapsing with no data, on which the loop `continue`s — then calls
`recv(1024)`; empty data is EOF and breaks the loop; `SSLWantReadError`
continues; an SSL error carrying `UNEXPECTED_EOF_WHILE_READING` breaks the
loop; any other SSL error is re-raised.  The bytes received are appended
to the file; the result is the file's final content. -/
def payloadLoop (events : List NetEvent) (fileData : List Nat) :
    Except RecvErr (List Nat) :=
  match events with
  | [] => .ok fileData
  | .chunk bs :: rest =>
    if (bs.take 1024).isEmpty then .ok fileData
    else
      payloadLoop
        (if (bs.drop 1024).isEmpty then rest else .chunk (bs.drop 1024) :: rest)
        (fileData ++ bs.take 1024)
  | .wantRead :: rest => payloadLoop rest fileData
  | .pollTimeout :: rest => payloadLoop rest fileData
  | .abruptEOF :: _ => .ok fileData
  | .sslFailure :: _ => .error .sslFailure
termination_by streamSize events
decreasing_by
  · split <;>
      simp_all [streamSize, List.length_take, List.length_drop,
        List.isEmpty_iff] <;> omega
  · simp [streamSize]
  · simp [streamSize]

/-- Server lines 67-96: receive the 4-byte big-endian name length, then
exactly that many bytes of file name, then stream the remaining payload to
the file until EOF.  (The UTF-8 decode of the name and the file sink are
external collaborators; the name stays at byte level here.) -/
def serverReceive (events : List NetEvent) :
    Except RecvErr (List Nat × List Nat) :=
  match receiveDataLoop events 4 [] with
  | .error e => .error e
  | .ok (nameLengthData, rest) =>
    match receiveDataLoop rest (fromBytesBE nameLengthData) [] with
    | .error e => .error e
    | .ok (fileName, rest2) =>
      match payloadLoop rest2 [] with
      | .error e => .error e
      | .ok content => .ok (fileName, content)

/-- The payload bytes a stream of events delivers, in order. -/
def streamBytes : List NetEvent → List Nat
  | [] => []
  | .chunk bs :: rest => bs ++ streamBytes rest
  | _ :: rest => streamBytes rest

/-- A healthy client stream: only nonempty buffered chunks, transient
want-read signals and empty poll windows, ending in a clean close. -/
def benign : List NetEvent → Bool
  | [] => true
  | .chunk bs :: rest => !bs.isEmpty && benign rest
  | .wantRead :: rest => benign rest
  | .pollTimeout :: rest => benign rest
  | .abruptEOF :: _ => false
  | .sslFailure :: _ => false

/-! ## Helper lemmas -/

theorem basename_of_no_sep (path : List Nat) (h : 47 ∉ path) :
    basename path = path := by
  unfold basename
  have hw : path.reverse.takeWhile (fun b => b != 47) = path.reverse := by
    rw [List.takeWhile_eq_self_iff]
    intro x hx
    simp only [bne_iff_ne, ne_eq]
    intro hx47
    exact h (hx47 ▸ List.mem_reverse.mp hx)
  rw [hw, List.reverse_reverse]

theorem fromBytesBE_toBytesBE4 (n : Nat) (h : n < 4294967296) :
    fromBytesBE (toBytesBE4 n) = n := by
  simp only [fromBytesBE, toBytesBE4, List.foldl]
  omega

theorem toBytesBE4_length (n : Nat) : (toBytesBE4 n).length = 4 := rfl

theorem sendLoop_flatten (content : List Nat) (bytesSent fileSize : Nat) :
    (sendLoop content bytesSent fileSize).1.flatten = content := by
  induction content, bytesSent, fileSize using sendLoop.induct with
  | case1 _ _ => simp [sendLoop]
  | case2 b rest bytesSent fileSize d sent ih =>
    rw [sendLoop]
    simp only [List.flatten_cons]
    simp only [sent, d] at ih
    rw [ih]
    exact List.take_append_drop 1024 (b :: rest)

theorem receiveDataLoop_done (events : List NetEvent) (length : Nat)
    (data : List Nat) (h : ¬data.length < length) :
    receiveDataLoop events length data = .ok (data, events) := by
  rw [receiveDataLoop.eq_def, if_neg h]

theorem receiveDataLoop_nil (length : Nat) (data : List Nat)
    (h : data.length < length) :
    receiveDataLoop [] length data = .error .connClosed := by
  rw [receiveDataLoop.eq_def, if_pos h]

theorem receiveDataLoop_wantRead (rest : List NetEvent) (length : Nat)
    (data : List Nat) (h : data.length < length) :
    receiveDataLoop (.wantRead :: rest) length data =
      receiveDataLoop rest length data := by
  rw [receiveDataLoop.eq_def, if_pos h]

theorem receiveDataLoop_pollTimeout (rest : List NetEvent) (length : Nat)
    (data : List Nat) (h : data.length < length) :
    receiveDataLoop (.pollTimeout :: rest) length data =
      receiveDataLoop rest length data := by
  rw [receiveDataLoop.eq_def, if_pos h]

theorem receiveDataLoop_abruptEOF (tail : List NetEvent) (length : Nat)
    (data : List Nat) (h : data.length < length) :
    receiveDataLoop (.abruptEOF :: tail) length data = .error .abruptEOF := by
  rw [receiveDataLoop.eq_def, if_pos h]

theorem receiveDataLoop_sslFailure (tail : List NetEvent) (length : Nat)
    (data : List Nat) (h : data.length < length) :
    receiveDataLoop (.sslFailure :: tail) length data = .error .sslFailure := by
  rw [receiveDataLoop.eq_def, if_pos h]

theorem receiveDataLoop_chunk (rest : List NetEvent) (length : Nat)
    (data bs : List Nat) (h : data.length < length) (hbs : bs ≠ []) :
    receiveDataLoop (.chunk bs :: rest) length data =
      receiveDataLoop
        (if (bs.drop (min (length - data.length) 1024)).isEmpty then rest
          else .chunk (bs.drop (min (length - data.length) 1024)) :: rest)
        length (data ++ bs.take (min (length - data.length) 1024)) := by
  have hne : ¬(bs.take (min (length - data.length) 1024)).isEmpty = true := by
    simp only [List.isEmpty_eq_true, List.take_eq_nil_iff]
    push_neg
    exact ⟨by omega, hbs⟩
  rw [receiveDataLoop.eq_def]
  simp only [if_pos h, if_neg hne]

theorem payloadLoop_nil (fileData : List Nat) :
    payloadLoop [] fileData = .ok fileData := by
  rw [payloadLoop]

theorem payloadLoop_wantRead (rest : List NetEvent) (fileData : List Nat) :
    payloadLoop (.wantRead :: rest) fileData = payloadLoop rest fileData := by
  rw [payloadLoop]

theorem payloadLoop_pollTimeout (rest : List NetEvent) (fileData : List Nat) :
    payloadLoop (.pollTimeout :: rest) fileData = payloadLoop rest fileData := by
  rw [payloadLoop]

theorem payloadLoop_abruptEOF (tail : List NetEvent) (fileData : List Nat) :
    payloadLoop (.abruptEOF :: tail) fileData = .ok fileData := by
  rw [payloadLoop]

theorem payloadLoop_sslFailure (tail : List NetEvent) (fileData : List Nat) :
    payloadLoop (.sslFailure :: tail) fileData = .error .sslFailure := by
  rw [payloadLoop]

theorem payloadLoop_benign (events : List NetEvent) (fileData : List Nat)
    (hb : benign events = true) :
    payloadLoop events fileData = .ok (fileData ++ streamBytes events) := by
  revert hb
  induction events, fileData using payloadLoop.induct with
  | case1 fileData =>
    intro _
    simp [payloadLoop, streamBytes]
  | case2 fileData bs rest hc =>
    intro hb
    simp only [benign, Bool.and_eq_true] at hb
    simp only [List.isEmpty_eq_true, List.take_eq_nil_iff] at hc
    simp [hc.resolve_left (by omega)] at hb
  | case3 fileData bs rest hc ih =>
    intro hb
    simp only [benign, Bool.and_eq_true] at hb
    obtain ⟨hbs, hrest⟩ := hb
    rw [payloadLoop, if_neg hc]
    by_cases hd : (bs.drop 1024).isEmpty = true
    · rw [dif_pos hd] at ih
      rw [if_pos hd, ih hrest]
      have hdrop : bs.drop 1024 = [] := by simpa [List.isEmpty_iff] using hd
      have hbs2 : bs.take 1024 = bs := by
        conv_rhs => rw [← List.take_append_drop 1024 bs]
        rw [hdrop, List.append_nil]
      rw [hbs2]
      simp [streamBytes, List.append_assoc]
    · rw [dif_neg hd] at ih
      rw [if_neg hd]
      have hb' : benign (NetEvent.chunk (bs.drop 1024) :: rest) = true := by
        simp only [benign, Bool.and_eq_true]
        exact ⟨by simpa using hd, hrest⟩
      rw [ih hb']
      simp only [streamBytes, List.append_assoc]
      rw [← List.append_assoc (List.take 1024 bs) (List.drop 1024 bs),
        List.take_append_drop]
  | case4 fileData rest ih =>
    intro hb
    rw [payloadLoop]
    simpa [streamBytes] using ih (by simpa [benign] using hb)
  | case5 fileData rest ih =>
    intro hb
    rw [payloadLoop]
    simpa [streamBytes] using ih (by simpa [benign] using hb)
  | case6 fileData tail =>
    intro hb
    simp [benign] at hb
  | case7 fileData tail =>
    intro hb
    simp [benign] at hb

theorem receiveDataLoop_ok (events : List NetEvent) (length : Nat)
    (data : List Nat) (hb : benign events = true)
    (hlen : length ≤ data.length + (streamBytes events).length) :
    ∃ rest,
      receiveDataLoop events length data =
        .ok (data ++ (streamBytes events).take (length - data.length), rest) ∧
      benign rest = true ∧
      streamBytes rest = (streamBytes events).drop (length - data.length) := by
  revert hb hlen
  induction events, length, data using receiveDataLoop.induct with
  | case1 length data h =>
    intro hb hlen
    simp only [streamBytes, List.length_nil] at hlen
    omega
  | case2 length data h bs rest n hc =>
    intro hb hlen
    simp only [benign, Bool.and_eq_true] at hb
    simp only [n, List.isEmpty_eq_true, List.take_eq_nil_iff] at hc
    have hbs : bs = [] := hc.resolve_left (by omega)
    simp [hbs] at hb
  | case3 length data h bs rest n hc ih =>
    intro hb hlen
    simp only [benign, Bool.and_eq_true] at hb
    obtain ⟨hbs, hrest⟩ := hb
    have hbs' : bs ≠ [] := by simpa using hbs
    simp only [n] at ih
    rw [receiveDataLoop_chunk rest length data bs h hbs']
    set t := bs.take (min (length - data.length) 1024) with ht
    set dr := bs.drop (min (length - data.length) 1024) with hdr
    have htdr : t ++ dr = bs := List.take_append_drop _ bs
    have htlen : t.length = min (min (length - data.length) 1024) bs.length := by
      rw [ht, List.length_take]
    have htpos : t ≠ [] := by
      rw [ht]
      simp only [ne_eq, List.take_eq_nil_iff]
      push_neg
      exact ⟨by omega, hbs'⟩
    have htk : t.length ≤ length - data.length := by
      rw [htlen]; omega
    have hsb : ∀ es', es' = (if dr.isEmpty = true then rest
          else NetEvent.chunk dr :: rest) →
        streamBytes es' = dr ++ streamBytes rest := by
      intro es' hes'
      subst hes'
      split
      · next hemp =>
        rw [List.isEmpty_iff.mp hemp]
        rfl
      · simp [streamBytes]
    have hbe : benign (if dr.isEmpty = true then rest
        else NetEvent.chunk dr :: rest) = true := by
      split
      · exact hrest
      · next hemp =>
        simp only [benign, Bool.and_eq_true]
        exact ⟨by simpa using hemp, hrest⟩
    -- apply the inductive hypothesis to the pushed-back stream
    have hflat : streamBytes (NetEvent.chunk bs :: rest) = bs ++ streamBytes rest := rfl
    have hlen' : length ≤ (data ++ t).length +
        (streamBytes (if dr.isEmpty = true then rest
          else NetEvent.chunk dr :: rest)).length := by
      rw [hsb _ rfl, List.length_append, List.length_append]
      have : t.length + dr.length = bs.length := by
        rw [← List.length_append, htdr]
      rw [hflat, List.length_append] at hlen
      omega
    simp only [dite_eq_ite] at ih
    obtain ⟨rest', hrun, hbe', hsb'⟩ := ih hbe hlen'
    have hkt : length - (data ++ t).length =
        (length - data.length) - t.length := by
      rw [List.length_append]; omega
    have hsplit : length - data.length =
        t.length + ((length - data.length) - t.length) := by omega
    refine ⟨rest', ?_, hbe', ?_⟩
    · rw [hrun, hsb _ rfl, hkt, hflat]
      conv_rhs => rw [← htdr, List.append_assoc, hsplit]
      rw [List.take_append]
      rw [List.append_assoc]
    · rw [hsb', hsb _ rfl, hkt, hflat]
      conv_rhs => rw [← htdr, List.append_assoc, hsplit]
      rw [List.drop_append]
  | case4 length data h rest ih =>
    intro hb hlen
    rw [receiveDataLoop_wantRead rest length data h]
    exact ih (by simpa [benign] using hb) (by simpa [streamBytes] using hlen)
  | case5 length data h rest ih =>
    intro hb hlen
    rw [receiveDataLoop_pollTimeout rest length data h]
    exact ih (by simpa [benign] using hb) (by simpa [streamBytes] using hlen)
  | case6 length data h tail =>
    intro hb hlen
    simp [benign] at hb
  | case7 length data h tail =>
    intro hb hlen
    simp [benign] at hb
  | case8 events length data h =>
    intro hb hlen
    have hk : length - data.length = 0 := by omega
    rw [receiveDataLoop_done events length data h]
    exact ⟨events, by simp [hk], hb, by simp [hk]⟩

theorem receiveDataLoop_short (events : List NetEvent) (length : Nat)
    (data : List Nat) (hb : benign events = true)
    (hlen : data.length + (streamBytes events).length < length) :
    receiveDataLoop events length data = .error .connClosed := by
  revert hb hlen
  induction events, length, data using receiveDataLoop.induct with
  | case1 length data h =>
    intro _ _
    exact receiveDataLoop_nil length data h
  | case2 length data h bs rest n hc =>
    intro hb hlen
    simp only [benign, Bool.and_eq_true] at hb
    simp only [n, List.isEmpty_eq_true, List.take_eq_nil_iff] at hc
    have hbs : bs = [] := hc.resolve_left (by omega)
    simp [hbs] at hb
  | case3 length data h bs rest n hc ih =>
    intro hb hlen
    simp only [benign, Bool.and_eq_true] at hb
    obtain ⟨hbs, hrest⟩ := hb
    have hbs' : bs ≠ [] := by simpa using hbs
    simp only [n, dite_eq_ite] at ih
    rw [receiveDataLoop_chunk rest length data bs h hbs']
    set t := bs.take (min (length - data.length) 1024) with ht
    set dr := bs.drop (min (length - data.length) 1024) with hdr
    have htdr : t ++ dr = bs := List.take_append_drop _ bs
    have hsb : streamBytes (if dr.isEmpty = true then rest
        else NetEvent.chunk dr :: rest) = dr ++ streamBytes rest := by
      split
      · next hemp =>
        rw [List.isEmpty_iff.mp hemp]
        rfl
      · simp [streamBytes]
    have hbe : benign (if dr.isEmpty = true then rest
        else NetEvent.chunk dr :: rest) = true := by
      split
      · exact hrest
      · next hemp =>
        simp only [benign, Bool.and_eq_true]
        exact ⟨by simpa using hemp, hrest⟩
    apply ih hbe
    rw [hsb, List.length_append, List.length_append]
    have hflat : streamBytes (NetEvent.chunk bs :: rest) = bs ++ streamBytes rest := rfl
    rw [hflat, List.length_append] at hlen
    have : t.length + dr.length = bs.length := by
      rw [← List.length_append, htdr]
    omega
  | case4 length data h rest ih =>
    intro hb hlen
    rw [receiveDataLoop_wantRead rest length data h]
    exact ih (by simpa [benign] using hb) (by simpa [streamBytes] using hlen)
  | case5 length data h rest ih =>
    intro hb hlen
    rw [receiveDataLoop_pollTimeout rest length data h]
    exact ih (by simpa [benign] using hb) (by simpa [streamBytes] using hlen)
  | case6 length data h tail =>
    intro hb hlen
    simp [benign] at hb
  | case7 length data h tail =>
    intro hb hlen
    simp [benign] at hb
  | case8 events length data h =>
    intro hb hlen
    omega

/-- The payload loop only fails when a hard SSL error actually occurs on
the stream; neither poll timeouts, want-read retries, EOF signals nor the
clean close can produce an error. -/
theorem payloadLoop_error_only_ssl (events : List NetEvent)
    (fileData : List Nat) (e : RecvErr)
    (hrun : payloadLoop events fileData = .error e) :
    NetEvent.sslFailure ∈ events := by
  revert hrun
  induction events, fileData using payloadLoop.induct with
  | case1 fileData =>
    intro hrun
    simp [payloadLoop_nil] at hrun
  | case2 fileData bs rest hc =>
    intro hrun
    rw [payloadLoop, if_pos hc] at hrun
    exact absurd hrun (by simp)
  | case3 fileData bs rest hc ih =>
    intro hrun
    rw [payloadLoop, if_neg hc] at hrun
    simp only [dite_eq_ite] at ih
    have := ih hrun
    revert this
    split
    · intro hmem
      exact List.mem_cons_of_mem _ hmem
    · intro hmem
      rcases List.mem_cons.mp hmem with hq | hmem'
      · exact absurd hq.symm (by simp)
      · exact List.mem_cons_of_mem _ hmem'
  | case4 fileData rest ih =>
    intro hrun
    rw [payloadLoop_wantRead] at hrun
    exact List.mem_cons_of_mem _ (ih hrun)
  | case5 fileData rest ih =>
    intro hrun
    rw [payloadLoop_pollTimeout] at hrun
    exact List.mem_cons_of_mem _ (ih hrun)
  | case6 fileData tail =>
    intro hrun
    simp [payloadLoop_abruptEOF] at hrun
  | case7 fileData tail =>
    intro hrun
    exact List.mem_cons_self _ _

/-! ## Control-flow model of the client driver
(src/client/SecureNetFileXferClient.py, lines 15-99) -/

/-- Externally observable steps of `send_file`, in execution order. -/
inductive ClientStep where
  | checkFileExists   -- line 16: assert os.path.exists(file_path)
  | createSocket      -- line 19: socket.socket(...)
  | setSocketTimeout  -- line 20: settimeout(30)
  | createContext     -- lines 24-26: ssl context setup
  | tlsWrap           -- line 33: wrap_socket
  | connect           -- line 36: secure_socket.connect
  | transferBody      -- lines 41-68: framing, chunk loop, success print
  | printExc          -- lines 70-75: an except handler printed the error
  | shutdownCall      -- line 79: secure_socket.shutdown (inside try/except)
  | closeCall         -- line 82: secure_socket.close
  | printClosed       -- line 83: closing message
deriving DecidableEq

/-- Exception classes raised inside the try block of `send_file` and caught
by its handlers (lines 70-75): `ssl.SSLError`, `ConnectionError`, and any
other `Exception`. -/
inductive PyExc where
  | sslError
  | connectionError
  | otherException
deriving DecidableEq

/-- An exception escaping a call uncaught.  `assertionError` is what the
failed `assert` of client line 16 (or line 94 in `__main__`) raises; the
handlers of lines 70-75 never see it (it is raised before the try block)
and `except ValueError` in `__main__` does not catch it. -/
inductive PyError where
  | assertionError
deriving DecidableEq

/-- The operations of the try-block body, in source order (client lines
23-68).  `transferBody` stands for the framing sends and the chunk loop,
whose byte-level content is `sendFile`. -/
def clientBodySteps : List ClientStep :=
  [.createContext, .tlsWrap, .connect, .transferBody]

/-- Whether `secure_socket` is in `locals()` when the finally block runs
(client line 77): true when the body completed, or failed only after the
`wrap_socket` assignment (index 1 of `clientBodySteps`) had executed. -/
def gotPastWrap : Option (Nat × PyExc) → Bool
  | none => true
  | some (k, _) => 2 ≤ k

/-- The finally-block teardown (client lines 76-83; the server's finally at
lines 102-108 has the same shape): if the TLS socket exists, attempt
`shutdown` inside `try/except: pass` — a failure there is swallowed — then
call `close` and print the closing message.  `close` itself is an external
capability assumed not to raise.  The result is independent of
`shutdownRaises`: that is the swallowing. -/
def teardownSteps (secureExists shutdownRaises : Bool) :
    List ClientStep × Option PyError :=
  if secureExists then
    ([.shutdownCall, .closeCall, .printClosed], none)
  else
    ([.printClosed], none)

/-- One run of `send_file` (client lines 15-83).  `fileExists` is the
outcome of the line-16 existence check, which precedes everything else;
`failAt = some (k, e)` means the try-block body raised exception `e` after
completing its first `k` operations (`none` = the body ran to completion);
`shutdownRaises` is whether `shutdown` raises during teardown.  Returns the
executed steps in order and the exception escaping `send_file`, if any.
A failed assert raises before the socket is created and before the
try/finally is entered, so nothing else runs. -/
def sendFileRun (fileExists : Bool) (failAt : Option (Nat × PyExc))
    (shutdownRaises : Bool) : List ClientStep × Option PyError :=
  if fileExists then
    let td := teardownSteps (gotPastWrap failAt) shutdownRaises
    match failAt with
    | none =>
      ([.checkFileExists, .createSocket, .setSocketTimeout] ++
        clientBodySteps ++ td.1, td.2)
    | some (k, _) =>
      ([.checkFileExists, .createSocket, .setSocketTimeout] ++
        clientBodySteps.take k ++ [.printExc] ++ td.1, td.2)
  else
    ([.checkFileExists], some .assertionError)

/-- Exit behaviour of the client process. -/
inductive ExitStatus where
  | exitZero
  | exitOne
  | uncaught : PyError → ExitStatus
deriving DecidableEq

/-- The client `__main__` block (lines 85-99): a wrong argument count
prints usage and exits 1; a non-numeric port raises `ValueError`, caught by
`except ValueError`, after which the script ends normally (exit 0); an
out-of-range port fails the line-94 assert, whose `AssertionError` is not
a `ValueError` and kills the process; otherwise `send_file` runs, and any
exception escaping it likewise kills the process; a normal return ends the
script with exit status 0. -/
def clientMain (argc : Nat) (portNumeric : Bool) (port : Nat)
    (fileExists : Bool) (failAt : Option (Nat × PyExc))
    (shutdownRaises : Bool) : ExitStatus :=
  if argc ≠ 4 then .exitOne
  else if !portNumeric then .exitZero
  else if ¬(1024 ≤ port ∧ port ≤ 65535) then .uncaught .assertionError
  else
    match (sendFileRun fileExists failAt shutdownRaises).2 with
    | some e => .uncaught e
    | none => .exitZero

/-! ## Control-flow model of the server loop
(src/server/SecureNetFileXferServer.py, lines 27-125) -/

/-- What one pass of the accept loop encounters: `accept` itself raises
(caught by the outer `except Exception`, line 118), the TLS handshake at
line 62 fails with `ssl.SSLError` (caught at line 110), or a TLS session
is established and the receive cycle runs over the connection's event
stream. -/
inductive ConnEvent where
  | acceptFails
  | handshakeFails
  | session : List NetEvent → ConnEvent

/-- Externally observable steps of one server-loop iteration. -/
inductive SrvStep where
  | acceptCall
  | handshake
  | printSuccess
  | printError
  | shutdownCall
  | closeCall
  | printClosed
deriving DecidableEq

/-- One iteration of the `while True` loop (server lines 53-125).  Every
per-connection exception is caught inside the iteration: accept errors by
`except Exception`, handshake failures by `except ssl.SSLError` (which
also best-effort-closes the raw socket), and receive errors by the inner
handlers (lines 98-101); for an established session the finally block
(lines 102-108) always shuts down and closes the TLS socket.  The
function is total: no connection outcome escapes the iteration. -/
def serverIteration : ConnEvent → List SrvStep
  | .acceptFails => [.acceptCall, .printError]
  | .handshakeFails => [.acceptCall, .printError, .shutdownCall, .closeCall]
  | .session events =>
    [.acceptCall, .handshake] ++
    (match serverReceive events with
      | .ok _ => [SrvStep.printSuccess]
      | .error _ => [SrvStep.printError]) ++
    [.shutdownCall, .closeCall, .printClosed]

/-- Fatal startup failures of `start_server`, all raised before the accept
loop is entered: the port-range assert (line 35), socket/bind/listen
failure (lines 38-41, e.g. the port is already bound), and certificate or
key loading failure (lines 44-45). -/
inductive StartupErr where
  | portAssert
  | bindError
  | certError
deriving DecidableEq

/-- The function `start_server` (server lines 27-125): the assert, the bind/listen setup
and the certificate loading run before the loop and are terminal when they
fail; afterwards the loop handles accepted connections one at a time, one
`serverIteration` each.  The infinite loop is modelled on an arbitrary
finite prefix of the connection sequence. -/
def startServer (port : Nat) (bindOk certOk : Bool)
    (conns : List ConnEvent) : Except StartupErr (List (List SrvStep)) :=
  if ¬(1024 ≤ port ∧ port ≤ 65535) then .error .portAssert
  else if !bindOk then .error .bindError
  else if !certOk then .error .certError
  else .ok (conns.map serverIteration)

/-! ## Claim theorems -/

/-- C1: Round-trip of the framed transfer protocol.  For any file content
(of any size, zero included) and any filename with no path separator
(modelled at byte level; a valid-UTF-8 name decodes back to itself, so the
byte-level identity is the round-trip), if the client's send produces the
byte stream (4-byte big-endian length, filename bytes, payload in
1024-byte chunks) and the server receives that stream — delivered as any
healthy sequence of socket events carrying exactly those bytes — then the
receive yields the same filename and byte-identical content of the same
length. -/
theorem c1_round_trip (fileName content stream : List Nat)
    (progress : List (Nat × Nat)) (events : List NetEvent)
    (hsep : 47 ∉ fileName) (hfit : fileName.length < 4294967296)
    (hsend : sendFile fileName content = .ok (stream, progress))
    (hb : benign events = true)
    (hstream : streamBytes events = stream) :
    serverReceive events = .ok (fileName, content) ∧
    (∀ name got, serverReceive events = .ok (name, got) →
      name = fileName ∧ got.length = content.length) := by
  have hbase : basename fileName = fileName := basename_of_no_sep fileName hsep
  have hstream' : stream = toBytesBE4 fileName.length ++ fileName ++ content := by
    simp only [sendFile, hbase] at hsend
    rw [if_pos hfit] at hsend
    simp only [sendLoop_flatten, Except.ok.injEq, Prod.mk.injEq] at hsend
    exact hsend.1.symm
  have hsbev : streamBytes events =
      toBytesBE4 fileName.length ++ (fileName ++ content) := by
    rw [hstream, hstream', List.append_assoc]
  obtain ⟨rest, h1, hb1, hs1⟩ := receiveDataLoop_ok events 4 [] hb
    (by rw [hsbev]; simp [toBytesBE4])
  have htake4 : ([] : List Nat) ++
      (streamBytes events).take (4 - ([] : List Nat).length) =
      toBytesBE4 fileName.length := by
    rw [hsbev]
    simp [toBytesBE4]
  rw [htake4] at h1
  have hs1' : streamBytes rest = fileName ++ content := by
    rw [hs1, hsbev]
    simp [toBytesBE4]
  have hfrom : fromBytesBE (toBytesBE4 fileName.length) = fileName.length :=
    fromBytesBE_toBytesBE4 _ hfit
  obtain ⟨rest2, h2, hb2, hs2⟩ := receiveDataLoop_ok rest fileName.length [] hb1
    (by rw [hs1']; simp only [List.length_nil, List.length_append]; omega)
  have htakeL : ([] : List Nat) ++
      (streamBytes rest).take (fileName.length - ([] : List Nat).length) =
      fileName := by
    rw [hs1']
    simpa using List.take_left fileName content
  rw [htakeL] at h2
  have hs2' : streamBytes rest2 = content := by
    rw [hs2, hs1']
    simpa using List.drop_left fileName content
  have h3 : payloadLoop rest2 [] = .ok content := by
    rw [payloadLoop_benign rest2 [] hb2, hs2']
    simp
  have hmain : serverReceive events = .ok (fileName, content) := by
    simp only [serverReceive, h1, hfrom, h2, h3]
  exact ⟨hmain, fun name got hgot => by
    rw [hmain] at hgot
    simp only [Except.ok.injEq, Prod.mk.injEq] at hgot
    exact ⟨hgot.1.symm, by rw [hgot.2]⟩⟩

/-- C1 witness: a concrete instantiation (file name `"r"`, empty content,
the whole stream delivered as one buffered chunk). -/
theorem c1_round_trip_witness :
    serverReceive [NetEvent.chunk [0, 0, 0, 1, 114]] = .ok ([114], []) :=
  (c1_round_trip [114] [] [0, 0, 0, 1, 114] [] [NetEvent.chunk [0, 0, 0, 1, 114]]
    (by decide) (by decide)
    (by simp [sendFile, sendLoop, basename, toBytesBE4])
    (by decide) (by decide)).1

/-- C2: If the stream closes before the receiver has the full 4-byte
length header (first conjunct: fewer than 4 bytes arrive before the clean
close), or before it has the `N` filename bytes the header claims (second
conjunct: the header decodes to an `N` larger than the bytes that follow
it), the receive operation surfaces the short-read error — the
`ConnectionError` that the spec's taxonomy calls `ProtocolError` — rather
than truncating or succeeding. -/
theorem c2_short_read_error (events : List NetEvent)
    (hb : benign events = true) :
    ((streamBytes events).length < 4 →
      serverReceive events = .error .connClosed) ∧
    (∀ hdr tail, streamBytes events = hdr ++ tail → hdr.length = 4 →
      tail.length < fromBytesBE hdr →
      serverReceive events = .error .connClosed) := by
  constructor
  · intro hshort
    have h1 : receiveDataLoop events 4 [] = .error .connClosed :=
      receiveDataLoop_short events 4 [] hb (by simpa using hshort)
    simp only [serverReceive, h1]
  · intro hdr tail hsplit hhdr hclaim
    obtain ⟨rest, h1, hb1, hs1⟩ := receiveDataLoop_ok events 4 [] hb
      (by rw [hsplit]; simp only [List.length_nil, List.length_append]; omega)
    have htake4 : ([] : List Nat) ++
        (streamBytes events).take (4 - ([] : List Nat).length) = hdr := by
      rw [hsplit]
      simpa using List.take_left' hhdr
    rw [htake4] at h1
    have hs1' : streamBytes rest = tail := by
      rw [hs1, hsplit]
      simpa using List.drop_left' hhdr
    have h2 : receiveDataLoop rest (fromBytesBE hdr) [] = .error .connClosed :=
      receiveDataLoop_short rest (fromBytesBE hdr) [] hb1
        (by rw [hs1']; simpa using hclaim)
    simp only [serverReceive, h1, h2]

/-- C2 witness: one byte arrives and the stream closes (header short
read); and a header claiming 5 name bytes is followed by a single byte
before the close (filename short read). -/
theorem c2_short_read_error_witness :
    serverReceive [NetEvent.chunk [7]] = .error .connClosed ∧
    serverReceive [NetEvent.chunk [0, 0, 0, 5, 9]] = .error .connClosed := by
  constructor
  · exact (c2_short_read_error [NetEvent.chunk [7]] (by decide)).1 (by decide)
  · exact (c2_short_read_error [NetEvent.chunk [0, 0, 0, 5, 9]] (by decide)).2
      [0, 0, 0, 5] [9] (by decide) (by decide) (by decide)

/-- C3: Framing invariant.  First conjunct: the 4-byte length field the
client writes is exactly the big-endian encoding of the encoded filename's
byte length, so it decodes back to that length.  Second conjunct: on any
healthy stream carrying at least `length` bytes, `receive_data(length)`
consumes exactly `length` bytes and returns exactly those bytes — the
stream prefix — leaving precisely the remaining bytes for the payload
phase. -/
theorem c3_framing_invariant (filePath content stream : List Nat)
    (progress : List (Nat × Nat)) (events : List NetEvent) (length : Nat)
    (hsend : sendFile filePath content = .ok (stream, progress))
    (hb : benign events = true)
    (hlen : length ≤ (streamBytes events).length) :
    (stream.take 4 = toBytesBE4 (basename filePath).length ∧
      fromBytesBE (stream.take 4) = (basename filePath).length) ∧
    (∃ rest, receiveDataLoop events length [] =
        .ok ((streamBytes events).take length, rest) ∧
      streamBytes rest = (streamBytes events).drop length) := by
  have hfit : (basename filePath).length < 4294967296 := by
    by_contra hge
    simp only [sendFile] at hsend
    rw [if_neg hge] at hsend
    exact absurd hsend (by simp)
  have hstream' : stream = toBytesBE4 (basename filePath).length ++
      basename filePath ++ (sendLoop content 0 content.length).1.flatten := by
    simp only [sendFile] at hsend
    rw [if_pos hfit] at hsend
    simp only [Except.ok.injEq, Prod.mk.injEq] at hsend
    exact hsend.1.symm
  refine ⟨⟨?_, ?_⟩, ?_⟩
  · rw [hstream', List.append_assoc]
    simp [toBytesBE4]
  · rw [hstream', List.append_assoc]
    simp only [toBytesBE4]
    simpa [toBytesBE4] using fromBytesBE_toBytesBE4 _ hfit
  · obtain ⟨rest, h1, _, hs1⟩ := receiveDataLoop_ok events length [] hb
      (by simpa using hlen)
    exact ⟨rest, by simpa using h1, by simpa using hs1⟩

/-- C3 witness: the client sends file `"a"` with empty content; the
receiver is asked for 3 bytes out of the 5 on the stream. -/
theorem c3_framing_invariant_witness :
    [0, 0, 0, 1, 97].take 4 = toBytesBE4 (basename [97]).length ∧
    ∃ rest, receiveDataLoop [NetEvent.chunk [0, 0, 0, 1, 97]] 3 [] =
        .ok ((streamBytes [NetEvent.chunk [0, 0, 0, 1, 97]]).take 3, rest) ∧
      streamBytes rest = (streamBytes [NetEvent.chunk [0, 0, 0, 1, 97]]).drop 3 := by
  have h := c3_framing_invariant [97] [] [0, 0, 0, 1, 97] []
    [NetEvent.chunk [0, 0, 0, 1, 97]] 3
    (by simp [sendFile, sendLoop, basename, toBytesBE4])
    (by decide) (by decide)
  exact ⟨h.1.1, h.2⟩

/-- C4: The receiver's payload loop never ends a connection merely because
the bounded 5-second poll elapses: any number of elapsed poll windows are
skipped and the loop re-polls with unchanged state (first conjunct), and
the loop can only fail if a hard SSL error actually occurs on the stream —
its only other exits are the success exits on clean EOF or the
peer-closed signal (second conjunct). -/
theorem c4_poll_timeout_repolls :
    (∀ (k : Nat) (rest : List NetEvent) (fileData : List Nat),
      payloadLoop (List.replicate k .pollTimeout ++ rest) fileData =
        payloadLoop rest fileData) ∧
    (∀ (events : List NetEvent) (fileData : List Nat) (e : RecvErr),
      payloadLoop events fileData = .error e →
      NetEvent.sslFailure ∈ events) := by
  constructor
  · intro k rest fileData
    induction k with
    | zero => simp
    | succ k ih =>
      rw [List.replicate_succ, List.cons_append, payloadLoop_pollTimeout, ih]
  · exact payloadLoop_error_only_ssl

/-- C4 witness: three elapsed poll windows followed by the clean close
still succeed (with an empty file), and the error case really does force a
hard SSL error on the stream. -/
theorem c4_poll_timeout_repolls_witness :
    payloadLoop (List.replicate 3 .pollTimeout ++ []) [] = payloadLoop [] [] ∧
    NetEvent.sslFailure ∈ [NetEvent.sslFailure] := by
  refine ⟨c4_poll_timeout_repolls.1 3 [] [], ?_⟩
  exact c4_poll_timeout_repolls.2 [NetEvent.sslFailure] [] RecvErr.sslFailure
    (by rw [payloadLoop_sslFailure])

/-- C5: A transient `SSLWantReadError` is retried internally and never
surfaces: while a read is still incomplete it is simply skipped, leaving
the result of every header/filename read (conjunct 1) and of the payload
loop (conjunct 2) unchanged.  By contrast, the connection closing before
the read completes surfaces the short-read error (conjunct 3), and a hard
SSL failure surfaces from both the header/filename reads (conjunct 4) and
the payload loop (conjunct 5). -/
theorem c5_want_read_retried :
    (∀ (rest : List NetEvent) (length : Nat) (data : List Nat),
      data.length < length →
      receiveDataLoop (.wantRead :: rest) length data =
        receiveDataLoop rest length data) ∧
    (∀ (rest : List NetEvent) (fileData : List Nat),
      payloadLoop (.wantRead :: rest) fileData = payloadLoop rest fileData) ∧
    (∀ (length : Nat) (data : List Nat), data.length < length →
      receiveDataLoop [] length data = .error .connClosed) ∧
    (∀ (tail : List NetEvent) (length : Nat) (data : List Nat),
      data.length < length →
      receiveDataLoop (.sslFailure :: tail) length data = .error .sslFailure) ∧
    (∀ (tail : List NetEvent) (fileData : List Nat),
      payloadLoop (.sslFailure :: tail) fileData = .error .sslFailure) :=
  ⟨fun rest length data h => receiveDataLoop_wantRead rest length data h,
   fun rest fileData => payloadLoop_wantRead rest fileData,
   fun length data h => receiveDataLoop_nil length data h,
   fun tail length data h => receiveDataLoop_sslFailure tail length data h,
   fun tail fileData => payloadLoop_sslFailure tail fileData⟩

/-- C5 witness: concrete instances of each conjunct with a pending 4-byte
header read. -/
theorem c5_want_read_retried_witness :
    receiveDataLoop [NetEvent.wantRead] 4 [] = receiveDataLoop [] 4 [] ∧
    payloadLoop [NetEvent.wantRead] [] = payloadLoop [] [] ∧
    receiveDataLoop [] 4 [] = .error .connClosed ∧
    receiveDataLoop [NetEvent.sslFailure] 4 [] = .error .sslFailure ∧
    payloadLoop [NetEvent.sslFailure] [] = .error .sslFailure :=
  ⟨c5_want_read_retried.1 [] 4 [] (by decide),
   c5_want_read_retried.2.1 [] [],
   c5_want_read_retried.2.2.1 4 [] (by decide),
   c5_want_read_retried.2.2.2.1 [] 4 [] (by decide),
   c5_want_read_retried.2.2.2.2 [] []⟩

/-- C6: When the source file does not exist, `send_file` fails on the
line-16 assert before any network activity: the run raises
`AssertionError` having executed only the existence check — no socket is
created, no TLS wrap happens, no connect is attempted — whatever the rest
of the invocation would have done. -/
theorem c6_missing_file_no_socket (failAt : Option (Nat × PyExc))
    (shutdownRaises : Bool) :
    sendFileRun false failAt shutdownRaises =
      ([.checkFileExists], some .assertionError) ∧
    ClientStep.createSocket ∉ (sendFileRun false failAt shutdownRaises).1 ∧
    ClientStep.tlsWrap ∉ (sendFileRun false failAt shutdownRaises).1 ∧
    ClientStep.connect ∉ (sendFileRun false failAt shutdownRaises).1 := by
  have h : sendFileRun false failAt shutdownRaises =
      ([.checkFileExists], some .assertionError) := by
    simp [sendFileRun]
  refine ⟨h, ?_, ?_, ?_⟩ <;> rw [h] <;> decide

/-- C7: Session teardown.  For every exit of the try block — body
completed, or failed at any point after the TLS socket existed — the
finally block runs: `close` is called exactly once, `send_file` raises
nothing, and the run is unchanged when `shutdown` raises (its failure is
swallowed).  The teardown itself always performs shutdown-then-close and
never errors, and the server-side finally likewise closes the session
exactly once whether the receive succeeded or failed. -/
theorem c7_teardown_exactly_once (failAt : Option (Nat × PyExc)) (sr : Bool)
    (hwrap : gotPastWrap failAt = true) :
    ((sendFileRun true failAt sr).1.count ClientStep.closeCall = 1 ∧
      (sendFileRun true failAt sr).2 = none ∧
      sendFileRun true failAt sr = sendFileRun true failAt false) ∧
    (∀ sr', teardownSteps true sr' =
      ([.shutdownCall, .closeCall, .printClosed], none)) ∧
    (∀ events, (serverIteration (.session events)).count SrvStep.closeCall = 1) := by
  have htake : ∀ k, (clientBodySteps.take k).count ClientStep.closeCall = 0 := by
    intro k
    have hsub := (List.take_sublist k clientBodySteps).count_le ClientStep.closeCall
    have hz : clientBodySteps.count ClientStep.closeCall = 0 := by decide
    omega
  refine ⟨?_, fun sr' => rfl, fun events => ?_⟩
  · cases failAt with
    | none =>
      refine ⟨?_, rfl, rfl⟩
      simp [sendFileRun, teardownSteps, clientBodySteps, gotPastWrap]
    | some ke =>
      obtain ⟨k, e⟩ := ke
      have hrun : ∀ s, sendFileRun true (some (k, e)) s =
          ([.checkFileExists, .createSocket, .setSocketTimeout] ++
            clientBodySteps.take k ++ [.printExc] ++
            [.shutdownCall, .closeCall, .printClosed], none) := by
        intro s
        simp [sendFileRun, teardownSteps, hwrap]
      refine ⟨?_, by rw [hrun sr], by rw [hrun sr, hrun false]⟩
      rw [hrun sr]
      simp [List.count_append, htake k]
  · rcases h : serverReceive events with e | v <;> simp [serverIteration, h] <;> decide

/-- C7 witness: a transfer that failed right after `connect` with
`shutdown` also failing, plus concrete teardown and server-iteration
instances. -/
theorem c7_teardown_exactly_once_witness :
    (sendFileRun true (some (3, PyExc.connectionError)) true).1.count
      ClientStep.closeCall = 1 ∧
    teardownSteps true true =
      ([.shutdownCall, .closeCall, .printClosed], none) ∧
    (serverIteration (.session [])).count SrvStep.closeCall = 1 :=
  ⟨(c7_teardown_exactly_once (some (3, .connectionError)) true (by decide)).1.1,
   (c7_teardown_exactly_once (some (3, .connectionError)) true (by decide)).2.1 true,
   (c7_teardown_exactly_once (some (3, .connectionError)) true (by decide)).2.2 []⟩

/-- C8: Per-client error isolation.  With a valid port and successful
bind and certificate loading, the server runs one iteration per accepted
connection, however each of them fares — the loop never exits on a
per-client error, and an erroring session is still torn down (close is on
its iteration's trace).  Only the startup failures are terminal: a failed
bind (or certificate load) errors out before the loop ever runs. -/
theorem c8_per_client_isolation (port : Nat) (conns : List ConnEvent)
    (h1 : 1024 ≤ port) (h2 : port ≤ 65535) :
    (startServer port true true conns = .ok (conns.map serverIteration) ∧
      ∀ l, startServer port true true conns = .ok l →
        l.length = conns.length) ∧
    (∀ events, SrvStep.closeCall ∈ serverIteration (.session events)) ∧
    startServer port false true conns = .error .bindError ∧
    startServer port true false conns = .error .certError := by
  refine ⟨⟨?_, ?_⟩, ?_, ?_, ?_⟩
  · simp [startServer, h1, h2]
  · intro l hl
    simp [startServer, h1, h2] at hl
    rw [← hl]
    exact List.length_map conns serverIteration
  · intro events
    rcases h : serverReceive events with e | v <;> simp [serverIteration, h]
  · simp [startServer, h1, h2]
  · simp [startServer, h1, h2]

/-- C8 witness: port 2000, one failing accept, one failed handshake and
one empty session are all processed; a failed bind is terminal. -/
theorem c8_per_client_isolation_witness :
    startServer 2000 true true [.acceptFails, .handshakeFails, .session []] =
      .ok ([.acceptFails, .handshakeFails, .session []].map serverIteration) ∧
    SrvStep.closeCall ∈ serverIteration (.session []) ∧
    startServer 2000 false true [] = .error .bindError :=
  ⟨(c8_per_client_isolation 2000 [.acceptFails, .handshakeFails, .session []]
      (by decide) (by decide)).1.1,
   (c8_per_client_isolation 2000 [] (by decide) (by decide)).2.1 [],
   (c8_per_client_isolation 2000 [] (by decide) (by decide)).2.2.1⟩

/-- C9 (implicit): For a zero-byte source file the chunk loop body never
executes: the chunk list and the progress list are both empty, so the
progress division `(bytes_sent / file_size) * 100` is never evaluated on
the zero total; the header and filename are still sent, and `send_file`
produces the stream successfully. -/
theorem c9_zero_byte_file (filePath : List Nat)
    (hfit : (basename filePath).length < 4294967296) :
    sendFile filePath [] =
      .ok (toBytesBE4 (basename filePath).length ++ basename filePath, []) ∧
    sendLoop [] 0 0 = ([], []) := by
  constructor
  · simp only [sendFile]
    rw [if_pos hfit]
    simp [sendLoop]
  · simp [sendLoop]

/-- C9 witness: the file `"e"` with empty content. -/
theorem c9_zero_byte_file_witness :
    sendFile [101] [] =
      .ok (toBytesBE4 (basename [101]).length ++ basename [101], []) ∧
    sendLoop [] 0 0 = ([], []) :=
  c9_zero_byte_file [101] (by decide)

/-- C10 counterexample: the claim "for every input the client process
terminates with exit status 0" fails.  Invoking the client with four
arguments, a numeric in-range port and a non-existent file path makes the
line-16 assert raise `AssertionError`, which no handler catches (the try
block has not been entered, and `__main__` catches only `ValueError`), so
the process dies with a nonzero status. -/
theorem c10_exit_zero_counterexample :
    clientMain 4 true 8080 false none false = .uncaught .assertionError ∧
    clientMain 4 true 8080 false none false ≠ .exitZero := by
  constructor <;> decide

/-- C10 as amended: `send_file` catches every exception raised inside its
try block (connection, handshake, transfer) and returns normally, so for
every invocation that passes argument validation (four arguments, numeric
port within 1024..65535) and whose source file exists, the client process
exits with status 0 even when the transfer failed, and no transfer error
propagates to the caller of `send_file`.  (A missing source file, by
contrast, raises an uncaught `AssertionError` and the process dies with a
nonzero status — the counterexample above.) -/
theorem c10_transfer_errors_confined (port : Nat)
    (failAt : Option (Nat × PyExc)) (sr : Bool)
    (h1 : 1024 ≤ port) (h2 : port ≤ 65535) :
    clientMain 4 true port true failAt sr = .exitZero ∧
    (sendFileRun true failAt sr).2 = none := by
  have htd : ∀ (a b : Bool), (teardownSteps a b).2 = none := by
    intro a b
    unfold teardownSteps
    split <;> rfl
  have hnone : (sendFileRun true failAt sr).2 = none := by
    cases failAt <;> simp [sendFileRun, htd]
  refine ⟨?_, hnone⟩
  simp [clientMain, hnone, h1, h2]

/-- C10 witness: port 2000, a handshake failure inside the try block, a
failing shutdown — the process still exits 0. -/
theorem c10_transfer_errors_confined_witness :
    clientMain 4 true 2000 true (some (1, PyExc.sslError)) true = .exitZero ∧
    (sendFileRun true (some (1, PyExc.sslError)) true).2 = none :=
  c10_transfer_errors_confined 2000 (some (1, .sslError)) true
    (by decide) (by decide)

end SecureNetFileXfer
